import Mathlib

/-!
Verification of the genie session-scoped RPC fabric (dev/genie).

The definitions below are shallow embeddings of the Go source:
  - pkg/transport/fs.go   (filesystem backend: filename parsing,
    GetLastRequestID, WatchRequests initial scan, watcher event routing,
    SendResponse stub, waitForResponse)
  - pkg/transport/s3.go   (object-store backend: poll-based WatchRequests,
    waitForResponse ticker loop, SendResponse)
  - pkg/server/server.go  (SessionHandler.handleRequest: call-type check,
    command and argument allow-list, effective timeout, response publishing)
  - pkg/client/client.go  (Send pipeline; the id-allocation step is modelled
    from the spec where noted)

Filenames and paths are embedded as `List Char`; Go `int` as `Int`
(with explicit wrap-around where 64-bit overflow matters); Go maps as
association lists; fallible operations as `Option`/`Except`.
-/

namespace Genie

/-! ## Characters and decimal digits -/

/-- Decimal digit test, as used by Go's `strconv.Atoi` (`'0' <= c && c <= '9'`). -/
def isDecDigit (c : Char) : Bool :=
  48 ≤ c.toNat && c.toNat ≤ 57

/-- Numeric value of a decimal digit character. -/
def digitVal (c : Char) : Nat := c.toNat - 48

/-- The decimal digit character for `d < 10`; embedding of the digits
emitted by Go's `fmt.Sprintf("%d", ·)`. -/
def decDigit (d : Nat) : Char :=
  match d with
  | 0 => '0' | 1 => '1' | 2 => '2' | 3 => '3' | 4 => '4'
  | 5 => '5' | 6 => '6' | 7 => '7' | 8 => '8' | _ => '9'

/-- Fuel-driven core of the decimal rendering (structural recursion so that
concrete instances reduce). With `n < fuel` the fuel never runs out. -/
def natToDecimalAux : Nat → Nat → List Char
  | 0, _ => []
  | fuel + 1, n =>
    if n < 10 then [decDigit n]
    else natToDecimalAux fuel (n / 10) ++ [decDigit (n % 10)]

/-- Decimal rendering of a natural number, least significant digit last,
mirroring `fmt.Sprintf("%d", n)` for non-negative `n`. -/
def natToDecimal (n : Nat) : List Char := natToDecimalAux (n + 1) n

/-- Value accumulator for a run of decimal digits: `none` as soon as a
non-digit is hit, otherwise the base-10 value (arbitrary precision). -/
def digitsValAux (acc : Nat) : List Char → Option Nat
  | [] => some acc
  | c :: cs => if isDecDigit c then digitsValAux (acc * 10 + digitVal c) cs else none

/-- Value of a non-empty all-digit string. -/
def digitsVal (s : List Char) : Option Nat :=
  match s with
  | [] => none
  | _ => digitsValAux 0 s

/-- Largest value accepted by Go's `strconv.Atoi` on a 64-bit platform. -/
def maxInt64 : Nat := 9223372036854775807

/-- Embedding of Go's `strconv.Atoi`: optional single leading sign, then a
non-empty run of decimal digits, rejected outside the `int64` range. -/
def goAtoi (s : List Char) : Option Int :=
  match s with
  | [] => none
  | c :: rest =>
    if c = '+' then
      (digitsVal rest).bind (fun v => if v ≤ maxInt64 then some (v : Int) else none)
    else if c = '-' then
      (digitsVal rest).bind (fun v => if v ≤ maxInt64 + 1 then some (-(v : Int)) else none)
    else
      (digitsVal s).bind (fun v => if v ≤ maxInt64 then some (v : Int) else none)

/-! ## Splitting on `'-'`

`strings.Split(fn, "-")` splits at every occurrence of the separator and
keeps empty fields; the result is always non-empty. -/

/-- Embedding of Go's `strings.Split(·, "-")`. -/
def splitOnDash : List Char → List (List Char)
  | [] => [[]]
  | c :: cs =>
    if c = '-' then [] :: splitOnDash cs
    else
      match splitOnDash cs with
      | [] => [[c]]
      | p :: ps => (c :: p) :: ps

/-! ## Filename parsing (fs.go `parseRequestIdFromFilename` / `parseResponseIdFromFilename`)

Go:
```
parts := strings.Split(fn, "-")
if len(parts) < 2 || parts[1] != "req.yaml" { return 0, error }
return strconv.Atoi(parts[0])
```
-/

/-- Embedding of fs.go `parseRequestIdFromFilename`. -/
def parseRequestIdFromFilename (fn : List Char) : Option Int :=
  match splitOnDash fn with
  | p0 :: p1 :: _ => if p1 = "req.yaml".data then goAtoi p0 else none
  | _ => none

/-- Embedding of fs.go `parseResponseIdFromFilename`. -/
def parseResponseIdFromFilename (fn : List Char) : Option Int :=
  match splitOnDash fn with
  | p0 :: p1 :: _ => if p1 = "res.yaml".data then goAtoi p0 else none
  | _ => none

/-! ## Lemmas: digits, Atoi, splitting -/

theorem isDecDigit_decDigit (d : Nat) (h : d < 10) : isDecDigit (decDigit d) = true := by
  interval_cases d <;> decide

theorem digitVal_decDigit (d : Nat) (h : d < 10) : digitVal (decDigit d) = d := by
  interval_cases d <;> decide

theorem ne_dash_of_isDecDigit {c : Char} (h : isDecDigit c = true) : c ≠ '-' := by
  intro hc
  rw [hc] at h
  exact absurd h (by decide)

theorem ne_plus_of_isDecDigit {c : Char} (h : isDecDigit c = true) : c ≠ '+' := by
  intro hc
  rw [hc] at h
  exact absurd h (by decide)

theorem natToDecimalAux_digits (fuel : Nat) :
    ∀ n, n < fuel → ∀ c ∈ natToDecimalAux fuel n, isDecDigit c = true := by
  induction fuel with
  | zero => intro n hn; omega
  | succ fuel ih =>
    intro n _hn c hc
    rw [natToDecimalAux] at hc
    split at hc
    · rw [List.mem_singleton] at hc
      subst hc
      exact isDecDigit_decDigit n (by omega)
    · rw [List.mem_append] at hc
      have hdiv : n / 10 < fuel := by
        have hlt : n / 10 < n := Nat.div_lt_self (by omega) (by omega)
        omega
      rcases hc with hc | hc
      · exact ih (n / 10) hdiv c hc
      · rw [List.mem_singleton] at hc
        subst hc
        exact isDecDigit_decDigit _ (Nat.mod_lt _ (by omega))

theorem natToDecimal_digits (n : Nat) : ∀ c ∈ natToDecimal n, isDecDigit c = true :=
  natToDecimalAux_digits (n + 1) n (by omega)

theorem natToDecimalAux_ne_nil (fuel n : Nat) (h : n < fuel) :
    natToDecimalAux fuel n ≠ [] := by
  cases fuel with
  | zero => omega
  | succ fuel =>
    rw [natToDecimalAux]
    split
    · simp
    · simp

theorem natToDecimal_ne_nil (n : Nat) : natToDecimal n ≠ [] :=
  natToDecimalAux_ne_nil (n + 1) n (by omega)

theorem digitsValAux_append (xs ys : List Char) (acc : Nat) :
    digitsValAux acc (xs ++ ys) = (digitsValAux acc xs).bind (fun v => digitsValAux v ys) := by
  induction xs generalizing acc with
  | nil => simp [digitsValAux]
  | cons c cs ih =>
    simp only [List.cons_append, digitsValAux]
    split
    · exact ih _
    · simp

theorem digitsValAux_natToDecimalAux (fuel : Nat) :
    ∀ n, n < fuel →
      ∀ acc, ∃ k, digitsValAux acc (natToDecimalAux fuel n) = some (acc * 10 ^ k + n) := by
  induction fuel with
  | zero => intro n hn; omega
  | succ fuel ih =>
    intro n _hn acc
    rw [natToDecimalAux]
    split
    · refine ⟨1, ?_⟩
      have h : n < 10 := by omega
      simp [digitsValAux, isDecDigit_decDigit n h, digitVal_decDigit n h]
    · have hdiv : n / 10 < fuel := by
        have hlt : n / 10 < n := Nat.div_lt_self (by omega) (by omega)
        omega
      obtain ⟨k, hk⟩ := ih (n / 10) hdiv acc
      refine ⟨k + 1, ?_⟩
      rw [digitsValAux_append, hk]
      have h10 : n % 10 < 10 := Nat.mod_lt _ (by omega)
      show digitsValAux (acc * 10 ^ k + n / 10) [decDigit (n % 10)] =
        some (acc * 10 ^ (k + 1) + n)
      simp only [digitsValAux, isDecDigit_decDigit _ h10, if_true, digitVal_decDigit _ h10]
      have hdm := Nat.div_add_mod n 10
      rw [pow_succ, ← mul_assoc]
      refine congrArg some ?_
      generalize acc * 10 ^ k = m
      omega

theorem digitsValAux_natToDecimal (n : Nat) :
    ∀ acc, ∃ k, digitsValAux acc (natToDecimal n) = some (acc * 10 ^ k + n) :=
  digitsValAux_natToDecimalAux (n + 1) n (by omega)

theorem digitsVal_natToDecimal (n : Nat) : digitsVal (natToDecimal n) = some n := by
  obtain ⟨c, cs, e⟩ := List.exists_cons_of_ne_nil (natToDecimal_ne_nil n)
  obtain ⟨k, hk⟩ := digitsValAux_natToDecimal n 0
  rw [e] at hk ⊢
  simpa [digitsVal] using hk

theorem goAtoi_natToDecimal (n : Nat) (h : n ≤ maxInt64) :
    goAtoi (natToDecimal n) = some (n : Int) := by
  obtain ⟨c, cs, e⟩ := List.exists_cons_of_ne_nil (natToDecimal_ne_nil n)
  have hd : isDecDigit c = true := natToDecimal_digits n c (by rw [e]; exact List.mem_cons_self _ _)
  have hv := digitsVal_natToDecimal n
  rw [e] at hv ⊢
  simp only [goAtoi]
  rw [if_neg (ne_plus_of_isDecDigit hd), if_neg (ne_dash_of_isDecDigit hd), hv]
  show (if n ≤ maxInt64 then some ((n : Nat) : Int) else none) = some ((n : Nat) : Int)
  rw [if_pos h]

theorem splitOnDash_ne_nil (l : List Char) : splitOnDash l ≠ [] := by
  match l with
  | [] => simp [splitOnDash]
  | c :: cs =>
    simp only [splitOnDash]
    split
    · simp
    · split <;> simp

theorem splitOnDash_cons_of_ne {c : Char} (hc : c ≠ '-') (l : List Char) :
    splitOnDash (c :: l) =
      match splitOnDash l with
      | [] => [[c]]
      | p :: ps => (c :: p) :: ps := by
  simp only [splitOnDash, if_neg hc]

theorem splitOnDash_no_dash (l : List Char) (h : '-' ∉ l) : splitOnDash l = [l] := by
  induction l with
  | nil => rfl
  | cons c cs ih =>
    have hc : c ≠ '-' := fun e => h (by rw [e]; exact List.mem_cons_self _ _)
    have hcs : '-' ∉ cs := fun m => h (List.mem_cons_of_mem _ m)
    rw [splitOnDash_cons_of_ne hc, ih hcs]

theorem splitOnDash_append (a b : List Char) (h : '-' ∉ a) :
    splitOnDash (a ++ '-' :: b) = a :: splitOnDash b := by
  induction a with
  | nil => simp [splitOnDash]
  | cons c cs ih =>
    have hc : c ≠ '-' := fun e => h (by rw [e]; exact List.mem_cons_self _ _)
    have hcs := ih (fun m => h (List.mem_cons_of_mem _ m))
    rw [List.cons_append, splitOnDash_cons_of_ne hc, hcs]

theorem splitOnDash_structure (l : List Char) :
    ∀ h t, splitOnDash l = h :: t →
      '-' ∉ h ∧ ((t = [] ∧ l = h) ∨ ∃ r, l = h ++ '-' :: r ∧ splitOnDash r = t) := by
  induction l with
  | nil =>
    intro h t e
    simp only [splitOnDash, List.cons.injEq] at e
    obtain ⟨rfl, rfl⟩ := e
    exact ⟨by simp, Or.inl ⟨rfl, rfl⟩⟩
  | cons c cs ih =>
    intro h t e
    simp only [splitOnDash] at e
    by_cases hc : c = '-'
    · rw [if_pos hc] at e
      injection e with e1 e2
      subst e1
      refine ⟨by simp, Or.inr ⟨cs, ?_, e2⟩⟩
      simp [hc]
    · rw [if_neg hc] at e
      rcases hs : splitOnDash cs with _ | ⟨p, ps⟩
      · exact absurd hs (splitOnDash_ne_nil cs)
      · rw [hs] at e
        injection e with e1 e2
        subst e1 e2
        obtain ⟨hp, hrest⟩ := ih p ps hs
        refine ⟨?_, ?_⟩
        · intro hm
          rcases List.mem_cons.mp hm with e | hmem
          · exact hc e.symm
          · exact hp hmem
        · rcases hrest with ⟨rfl, rfl⟩ | ⟨r, rfl, hr⟩
          · exact Or.inl ⟨rfl, rfl⟩
          · exact Or.inr ⟨r, by simp, hr⟩

/-! ## Message file names

fs.go / s3.go build message names with `fmt.Sprintf("%d-req.yaml", reqId)`
and `fmt.Sprintf("%d-res.yaml", reqId)`. -/

/-- Decimal rendering of a Go `int`, mirroring `fmt.Sprintf("%d", i)`. -/
def intToDecimal (i : Int) : List Char :=
  if i < 0 then '-' :: natToDecimal i.natAbs else natToDecimal i.toNat

/-- Base name of the file holding request `reqId` (fs.go `requestPath`). -/
def requestFileName (reqId : Int) : List Char :=
  intToDecimal reqId ++ ('-' :: "req.yaml".data)

/-- Base name of the file holding the response to request `reqId`
(fs.go `responsePath`). -/
def responseFileName (reqId : Int) : List Char :=
  intToDecimal reqId ++ ('-' :: "res.yaml".data)

theorem natToDecimal_no_dash (n : Nat) : '-' ∉ natToDecimal n :=
  fun m => ne_dash_of_isDecDigit (natToDecimal_digits n _ m) rfl

theorem parseRequestIdFromFilename_roundTrip (i : Int) (h0 : 0 ≤ i)
    (h1 : i ≤ (maxInt64 : Int)) :
    parseRequestIdFromFilename (requestFileName i) = some i := by
  have hnn : intToDecimal i = natToDecimal i.toNat := by
    rw [intToDecimal, if_neg (by omega)]
  have hmax : i.toNat ≤ maxInt64 := by omega
  rw [requestFileName, hnn, parseRequestIdFromFilename,
    splitOnDash_append _ _ (natToDecimal_no_dash _),
    splitOnDash_no_dash "req.yaml".data (by decide)]
  show (if "req.yaml".data = "req.yaml".data then goAtoi (natToDecimal i.toNat) else none) = some i
  rw [if_pos rfl, goAtoi_natToDecimal _ hmax]
  congr 1
  omega

theorem parseResponseIdFromFilename_roundTrip (i : Int) (h0 : 0 ≤ i)
    (h1 : i ≤ (maxInt64 : Int)) :
    parseResponseIdFromFilename (responseFileName i) = some i := by
  have hnn : intToDecimal i = natToDecimal i.toNat := by
    rw [intToDecimal, if_neg (by omega)]
  have hmax : i.toNat ≤ maxInt64 := by omega
  rw [responseFileName, hnn, parseResponseIdFromFilename,
    splitOnDash_append _ _ (natToDecimal_no_dash _),
    splitOnDash_no_dash "res.yaml".data (by decide)]
  show (if "res.yaml".data = "res.yaml".data then goAtoi (natToDecimal i.toNat) else none) = some i
  rw [if_pos rfl, goAtoi_natToDecimal _ hmax]
  congr 1
  omega

/-- A request filename never parses as a response filename: its second
dash-field is "req.yaml", not "res.yaml". -/
theorem parseResponseId_requestFileName (i : Int) (h0 : 0 ≤ i) :
    parseResponseIdFromFilename (requestFileName i) = none := by
  have hnn : intToDecimal i = natToDecimal i.toNat := by
    rw [intToDecimal, if_neg (by omega)]
  rw [requestFileName, hnn, parseResponseIdFromFilename,
    splitOnDash_append _ _ (natToDecimal_no_dash _),
    splitOnDash_no_dash "req.yaml".data (by decide)]
  show (if "req.yaml".data = "res.yaml".data then goAtoi (natToDecimal i.toNat) else none) = none
  rw [if_neg (by decide)]

/-- A response filename never parses as a request filename. -/
theorem parseRequestId_responseFileName (i : Int) (h0 : 0 ≤ i) :
    parseRequestIdFromFilename (responseFileName i) = none := by
  have hnn : intToDecimal i = natToDecimal i.toNat := by
    rw [intToDecimal, if_neg (by omega)]
  rw [responseFileName, hnn, parseRequestIdFromFilename,
    splitOnDash_append _ _ (natToDecimal_no_dash _),
    splitOnDash_no_dash "res.yaml".data (by decide)]
  show (if "res.yaml".data = "req.yaml".data then goAtoi (natToDecimal i.toNat) else none) = none
  rw [if_neg (by decide)]

example : parseRequestIdFromFilename "1-req.yaml".data = some 1 := by decide
example : parseRequestIdFromFilename "12-res.yaml".data = none := by decide
example : parseResponseIdFromFilename "12-res.yaml".data = some 12 := by decide
example : parseRequestIdFromFilename "1-req.yaml-x".data = some 1 := by decide
example : parseRequestIdFromFilename "+2-req.yaml".data = some 2 := by decide
example : parseRequestIdFromFilename "req.yaml".data = none := by decide
example : parseRequestIdFromFilename "a-req.yaml".data = none := by decide

/-! ## Directory listings, GetLastRequestID and the WatchRequests initial scan -/

/-- A directory entry as returned by `os.ReadDir` (fs.go) or, with
`isDir := false`, an object name from a prefix listing (s3.go). -/
structure DirEntry where
  name : List Char
  isDir : Bool
deriving DecidableEq

/-- Association-list embedding of a Go `map[int]string`: key lookup. -/
def mapHasKey (m : List (Int × List Char)) (k : Int) : Bool :=
  m.any (fun p => p.1 == k)

/-- Association-list embedding of a Go map assignment `m[k] = v`. -/
def mapInsert (m : List (Int × List Char)) (k : Int) (v : List Char) :
    List (Int × List Char) :=
  (k, v) :: m.filter (fun p => p.1 != k)

/-- Association-list embedding of Go `delete(m, k)`. -/
def mapErase (m : List (Int × List Char)) (k : Int) : List (Int × List Char) :=
  m.filter (fun p => p.1 != k)

/-- The key set of an embedded Go map. -/
def mapKeys (m : List (Int × List Char)) : List Int :=
  m.map (fun p => p.1)

/-- Loop body of fs.go `GetLastRequestID` (lines 214-226): skip
sub-directories and names that do not parse as request filenames, keep the
largest id seen so far. -/
def lastIdStep (acc : Int) (e : DirEntry) : Int :=
  if e.isDir then acc
  else
    match parseRequestIdFromFilename e.name with
    | none => acc
    | some reqID => if reqID > acc then reqID else acc

/-- Embedding of fs.go `GetLastRequestID` (lines 203-229, identical logic
in s3.go): fold `lastIdStep` over the session directory starting from 0.
The session-existence check that precedes the fold is a precondition of
this happy path. -/
def GetLastRequestID (entries : List DirEntry) : Int :=
  entries.foldl lastIdStep 0

/-- State of the initial scan of `WatchRequests` (fs.go lines 142-162,
identical logic in s3.go `forwardAllUnansweredRequests`): the map of
pending requests and the map of seen responses, both keyed by id. -/
structure ScanState where
  allRequests : List (Int × List Char)
  allResponses : List (Int × List Char)

/-- One step of the scan: a request entry is recorded unless a response for
the same id has been seen; a response entry is recorded and deletes the
pending request of the same id; everything else is ignored. -/
def scanEntry (st : ScanState) (entry : DirEntry) : ScanState :=
  if entry.isDir then st
  else
    match parseRequestIdFromFilename entry.name with
    | some reqId =>
      if mapHasKey st.allResponses reqId then st
      else { st with allRequests := mapInsert st.allRequests reqId entry.name }
    | none =>
      match parseResponseIdFromFilename entry.name with
      | some reqId =>
        { allRequests := mapErase st.allRequests reqId,
          allResponses := mapInsert st.allResponses reqId entry.name }
      | none => st

/-- The whole initial scan of a session listing. -/
def initialScan (entries : List DirEntry) : ScanState :=
  entries.foldl scanEntry ⟨[], []⟩

/-- The ids pushed after the initial scan of `WatchRequests` (fs.go lines
164-169) and, equally, by one full rescan of the s3.go poll loop: the keys
still in `allRequests`. -/
def unansweredRequestIds (entries : List DirEntry) : List Int :=
  mapKeys (initialScan entries).allRequests

/-- Embedding of s3.go `WatchRequests`: `forwardAllUnansweredRequests` runs
once up front and then once per poll tick (lines 179-192), with no memory
of previously pushed ids, so the whole emission over a run is the
concatenation of the per-scan emissions over the observed listings. -/
def s3WatchRequestsEmitted (snapshots : List (List DirEntry)) : List Int :=
  snapshots.flatMap unansweredRequestIds

/-! ## The filesystem watcher (fs.go `ensureWatcher`, `addSubscriber`) -/

/-- Path of the sessions root: fs.go `sessionsPath` is
`path.Join(root, "sessions")`. -/
def sessionsPath (root : List Char) : List Char :=
  root ++ ('/' :: "sessions".data)

/-- Path of a session directory: `path.Join(root, "sessions", sessionId)`. -/
def sessionPath (root sessionId : List Char) : List Char :=
  sessionsPath root ++ ('/' :: sessionId)

/-- Full path of a request file: fs.go `requestPath`. -/
def requestPath (root sessionId : List Char) (reqId : Int) : List Char :=
  sessionPath root sessionId ++ ('/' :: requestFileName reqId)

/-- Full path of a response file: fs.go `responsePath`. -/
def responsePath (root sessionId : List Char) (reqId : Int) : List Char :=
  sessionPath root sessionId ++ ('/' :: responseFileName reqId)

/-- Directory component of a path: everything before the last slash
(`path.Split` without the trailing separator). Used to express fsnotify's
delivery rule: a watch on a directory reports only its direct children. -/
def parentDir (p : List Char) : List Char :=
  ((p.reverse.dropWhile (fun c => c != '/')).drop 1).reverse

/-- Embedding of the event feed a `WatchRequests` subscriber sees:
`ensureWatcher` (fs.go lines 286-324) adds exactly one directory to the
fsnotify watcher, `sessionsPath`, and never adds session directories, so a
Create event is forwarded only for paths created directly inside the
sessions root. The subscriber installed by `addSubscriber` (lines 256-284)
receives at most one event: its goroutine handles a single `select` arm and
then runs `done()`, which closes the outgoing channel. The callback
(lines 117-127) then parses the full event path as a request filename. -/
def fsWatchRequestsEventIds (root : List Char) (createdPaths : List (List Char)) :
    List Int :=
  (((createdPaths.filter (fun p => parentDir p == sessionsPath root)).take 1).filterMap
    parseRequestIdFromFilename)

/-! ## waitForResponse and SendResponse -/

/-- Embedding of s3.go `waitForResponse` (part of `SendUnary`): a ticker
with the configured poll interval drives the loop, and the loop body runs
only when the ticker fires, so the first read of the response object
happens at tick 1, never at tick 0 (the moment of the call). `store t`
is the response object's content as observable at tick `t`; `fuel` bounds
the number of ticks before the caller's context fires (`ctx.Done` maps to
running out of fuel). Returns the data together with the tick at which it
was read. -/
def s3WaitForResponse (store : Nat → Option (List Char)) :
    Nat → Nat → Option (List Char × Nat)
  | 0, _ => none
  | fuel + 1, tick =>
    match store (tick + 1) with
    | some d => some (d, tick + 1)
    | none => s3WaitForResponse store fuel (tick + 1)

/-- One fsnotify event as seen by a subscriber callback: the operation
flags checked by fs.go and the full path. -/
structure FsEvent where
  hasWrite : Bool
  hasCreate : Bool
  name : List Char
deriving DecidableEq

/-- The condition under which the waitForResponse subscriber callback
(fs.go line 238) forwards an event on its channel: a Write or Create event
whose full path is the response path. -/
def eventMatchesResponse (ev : FsEvent) (resPath : List Char) : Bool :=
  (ev.hasWrite || ev.hasCreate) && ev.name == resPath

/-- What the receive blocked on the subscriber channel observes at a given
instant: nothing yet, the first event forwarded by the shared watcher to
this subscriber, or the caller's cancellation. -/
inductive FsWaitObs where
  | nothingYet
  | event (ev : FsEvent)
  | cancelled
deriving DecidableEq

/-- Embedding of fs.go `waitForResponse` (lines 231-250): the caller
subscribes to the shared watcher and performs NO read up front; it blocks
on `<-out`. The `addSubscriber` goroutine handles at most one event and
then runs `done()`, which closes the channel, and a caller cancellation
also closes it; so the block ends at the first event delivered to this
subscriber - if it satisfies `eventMatchesResponse` the channel send is
received, otherwise the close is - or at cancellation, and only then does
`os.ReadFile(resPath)` run. `trace t` is what the blocked receive observes
at instant `t ≥ 1` after the call; `disk t` is the response file's content
at instant `t` (`disk 0`, the content at call time, is never read). `fuel`
bounds the observed instants. Returns the instant at which the block ended
together with the result of the single read performed then, or `none` when
the call is still blocked after `fuel` instants. -/
def fsWaitForResponse (resPath : List Char) (trace : Nat → FsWaitObs)
    (disk : Nat → Option (List Char)) :
    Nat → Nat → Option (Nat × Option (List Char))
  | 0, _ => none
  | fuel + 1, t =>
    match trace (t + 1) with
    | .nothingYet => fsWaitForResponse resPath trace disk fuel (t + 1)
    | .event ev =>
      if eventMatchesResponse ev resPath then some (t + 1, disk (t + 1))
      else some (t + 1, disk (t + 1))
    | .cancelled => some (t + 1, disk (t + 1))

/-- A transport message (transport.go `Message`): id, sequence id, payload. -/
structure Message where
  id : Int
  sequenceID : Int
  data : List Char

/-- Embedding of fs.go `SendResponse` (lines 199-201): the filesystem
backend does not implement it and always fails. -/
def FSSendResponse (_sessionId : List Char) (_msg : Message) : Except (List Char) Unit :=
  Except.error "not implemented".data

/-- An object store: keys to contents (s3.go; puts overwrite). -/
def S3Store : Type := List Char → Option (List Char)

/-- `PutObject`: the store after writing `content` under `key`. -/
def s3Put (store : S3Store) (key content : List Char) : S3Store :=
  fun k => if k = key then some content else store k

/-- s3.go `sessionsPath(sessionId)`: the session marker key. -/
def s3SessionMarkerKey (sessionId : List Char) : List Char :=
  "sessions".data ++ ('/' :: sessionId)

/-- s3.go `sessionPath(sessionId, name)`: message keys live under the
`session/` (singular) pseudo-directory. -/
def s3MessageKey (sessionId name : List Char) : List Char :=
  "session".data ++ ('/' :: (sessionId ++ ('/' :: name)))

/-- s3.go `HasSession`: `HeadObject` on the marker key succeeds. -/
def s3HasSession (store : S3Store) (sessionId : List Char) : Bool :=
  (store (s3SessionMarkerKey sessionId)).isSome

/-- Embedding of s3.go `SendResponse` (lines 293-300): a single `PutObject`
of the response payload under the response key. It performs no
session-marker check, and it succeeds whenever the underlying write does
(the only error returned is the put's own). -/
def S3SendResponse (store : S3Store) (sessionId : List Char) (msg : Message) :
    Except (List Char) S3Store :=
  Except.ok (s3Put store (s3MessageKey sessionId (responseFileName msg.id)) msg.data)

/-! ## The server request handler (pkg/server/server.go, `SessionHandler.handleRequest`) -/

/-- Protocol request (protocol.go). `type` is a string tag on the wire; the
decoder admits any string and the server compares it against "unary".
`timeoutMs` is `Context.Timeout` in milliseconds, 0 when the request did
not supply one. -/
structure Request where
  sessionID : List Char
  id : Int
  type : List Char
  cmd : List Char
  args : List (List Char)
  timeoutMs : Int
deriving DecidableEq

/-- Protocol response (protocol.go). -/
structure Response where
  requestID : Int
  sequenceID : Int
  exitCode : Int
  output : List Char
deriving DecidableEq

/-- Outcome of `cmd.Run` as observed through the `processDone` channel and
`ctx.Done` (handleRequest lines 235-260): the process finished within the
effective deadline with an exit state, or the deadline fired first, or the
run failed without producing a process state (the `ps == nil` branch). -/
inductive ExecOutcome where
  | finished (exitCode : Int) (combinedOutput : List Char)
  | deadlineFired
  | failedBadly
deriving DecidableEq

/-- Server handler configuration (server.go `HandlerConfig`): the
command-to-binary map and the per-call-type timeout map (a Go map lookup
returns the zero Duration for a missing key, hence a total function). -/
structure HandlerConfig where
  binaries : List Char → Option (List Char)
  timeouts : List Char → Int

/-- What one `handleRequest` call did: the response it published via
`sendResponse` (if any), whether it started the child process, and whether
it killed the child when the deadline fired. The source starts the child
with `exec.Command` — not `exec.CommandContext` — and the `ctx.Done` branch
(lines 251-254) only logs and returns, so no code path kills the child. -/
structure HandleResult where
  published : Option Response
  execInvoked : Bool
  childKilledOnDeadline : Bool
deriving DecidableEq

/-- handleRequest's `sendErrResponse` closure (lines 188-200): requestID of
the request, sequenceID 0, exitCode -1, output `"error: " + msg`. -/
def errResponse (req : Request) (msg : List Char) : Response :=
  { requestID := req.id, sequenceID := 0, exitCode := -1,
    output := "error: ".data ++ msg }

/-- Embedding of `SessionHandler.handleRequest` (server.go lines 176-274),
with the child-process run abstracted into `outcome`:
- a non-"unary" type is logged and dropped, nothing is published;
- a cmd other than "kubectl" gets the "unsupported command" error response;
- empty args get "auth: invalid args";
- a first argument outside get/describe gets "auth: command not allowed";
- a missing binary mapping gets "no binary configured for cmd: ...";
- otherwise the child is run; if it finishes, the response carries the
  request id, sequence 0, the exit code and the combined output buffer
  (stdout and stderr share one `io.MultiWriter` buffer); on a fired
  deadline or a badly failed run nothing is published and the child is
  not killed. -/
def handleRequest (cfg : HandlerConfig) (req : Request) (outcome : ExecOutcome) :
    HandleResult :=
  if req.type ≠ "unary".data then
    ⟨none, false, false⟩
  else if req.cmd ≠ "kubectl".data then
    ⟨some (errResponse req "unsupported command".data), false, false⟩
  else
    match req.args with
    | [] => ⟨some (errResponse req "auth: invalid args".data), false, false⟩
    | a0 :: _ =>
      if a0 ≠ "get".data ∧ a0 ≠ "describe".data then
        ⟨some (errResponse req "auth: command not allowed".data), false, false⟩
      else
        match cfg.binaries req.cmd with
        | none =>
          ⟨some (errResponse req ("no binary configured for cmd: ".data ++ req.cmd)),
            false, false⟩
        | some _binary =>
          match outcome with
          | .deadlineFired => ⟨none, true, false⟩
          | .failedBadly => ⟨none, true, false⟩
          | .finished c o => ⟨some ⟨req.id, 0, c, o⟩, true, false⟩

/-! ## Effective timeout (handleRequest lines 177-183) -/

/-- Two's-complement wrap-around of a 64-bit signed integer. -/
def wrap64 (x : Int) : Int := (x + 2 ^ 63) % 2 ^ 64 - 2 ^ 63

/-- Embedding of `time.Duration(ms) * time.Millisecond`: `time.Duration` is
a 64-bit count of nanoseconds and the product wraps on overflow. -/
def durationOfMillis (ms : Int) : Int := wrap64 (ms * 1000000)

/-- Embedding of `Duration.Milliseconds()`: division by 10^6 truncating
toward zero (Go integer division). -/
def durationMilliseconds (d : Int) : Int := Int.tdiv d 1000000

/-- Embedding of the timeout computation at the top of handleRequest:

```
requestTimeout := time.Duration(req.Context.Timeout) * time.Millisecond
defaultTimeout := h.config.Timeouts[req.Type]
if requestTimeout == 0 || requestTimeout.Milliseconds() > defaultTimeout.Milliseconds() {
    requestTimeout = defaultTimeout
}
```

Arguments and result in nanoseconds except `reqTimeoutMs` (milliseconds,
straight from the request). -/
def effectiveTimeout (reqTimeoutMs defaultTimeout : Int) : Int :=
  let requestTimeout := durationOfMillis reqTimeoutMs
  if requestTimeout = 0 ∨
      durationMilliseconds requestTimeout > durationMilliseconds defaultTimeout then
    defaultTimeout
  else
    requestTimeout

/-- The effective timeout for a decoded request under a handler config. -/
def effectiveTimeoutFor (cfg : HandlerConfig) (req : Request) : Int :=
  effectiveTimeout req.timeoutMs (cfg.timeouts req.type)

/-! ## The client id allocation (claim C5) -/

/-- Modelled from the spec: the current client `Send` pipeline — "Ask the
Transport for `GetLastRequestID(sessionID)`; assign `request.id = lastID + 1`",
then publish the request — is missing from the tree: the checked-in
pkg/client/client.go predates the Message-based transport interface and
never assigns `request.id`, and `transport.GetLastRequestID` (implemented
by both backends, documented as "Used by the client to pick the next id")
has no caller. This definition follows the spec's words for the allocation
step; `GetLastRequestID` and the written filename are the source embeddings
above. Returns the assigned id and the session listing after the request
file is written. -/
def clientSendAllocate (entries : List DirEntry) : Int × List DirEntry :=
  let lastID := GetLastRequestID entries
  let id := lastID + 1
  (id, ⟨requestFileName id, false⟩ :: entries)

/-! ## Helper lemmas: GetLastRequestID -/

theorem lastIdStep_ge (acc : Int) (e : DirEntry) : acc ≤ lastIdStep acc e := by
  unfold lastIdStep
  split
  · exact le_refl acc
  · cases hp : parseRequestIdFromFilename e.name with
    | none => simp [hp]
    | some reqID =>
      simp only [hp]
      split
      · omega
      · exact le_refl acc

theorem foldl_lastIdStep_ge (l : List DirEntry) (acc : Int) :
    acc ≤ l.foldl lastIdStep acc := by
  induction l generalizing acc with
  | nil => exact le_refl acc
  | cons e t ih => exact le_trans (lastIdStep_ge acc e) (ih (lastIdStep acc e))

theorem GetLastRequestID_nonneg (l : List DirEntry) : 0 ≤ GetLastRequestID l :=
  foldl_lastIdStep_ge l 0

theorem foldl_lastIdStep_ge_parsed (l : List DirEntry) (e : DirEntry)
    (hd : e.isDir = false) (i : Int)
    (hp : parseRequestIdFromFilename e.name = some i) :
    ∀ acc, e ∈ l → i ≤ l.foldl lastIdStep acc := by
  induction l with
  | nil => intro acc he; cases he
  | cons x t ih =>
    intro acc he
    rw [List.foldl_cons]
    rcases List.mem_cons.mp he with rfl | hmem
    · refine le_trans ?_ (foldl_lastIdStep_ge t _)
      unfold lastIdStep
      rw [if_neg (by rw [hd]; exact Bool.false_ne_true), hp]
      show i ≤ if i > acc then i else acc
      split <;> omega
    · exact ih (lastIdStep acc x) hmem

/-- Any request file present in the listing bounds `GetLastRequestID` from
below. -/
theorem GetLastRequestID_ge (l : List DirEntry) (e : DirEntry) (he : e ∈ l)
    (hd : e.isDir = false) (i : Int)
    (hp : parseRequestIdFromFilename e.name = some i) :
    i ≤ GetLastRequestID l :=
  foldl_lastIdStep_ge_parsed l e hd i hp 0 he

/-! ## Helper lemmas: embedded Go maps and the initial scan -/

theorem mem_mapInsert {m : List (Int × List Char)} {k : Int} {v : List Char}
    {p : Int × List Char} :
    p ∈ mapInsert m k v ↔ p = (k, v) ∨ (p ∈ m ∧ p.1 ≠ k) := by
  simp [mapInsert, List.mem_filter, bne_iff_ne]

theorem mem_mapErase {m : List (Int × List Char)} {k : Int} {p : Int × List Char} :
    p ∈ mapErase m k ↔ p ∈ m ∧ p.1 ≠ k := by
  simp [mapErase, List.mem_filter, bne_iff_ne]

theorem mapHasKey_iff {m : List (Int × List Char)} {k : Int} :
    mapHasKey m k = true ↔ ∃ p ∈ m, p.1 = k := by
  simp [mapHasKey, List.any_eq_true, beq_iff_eq]

theorem mem_mapKeys {m : List (Int × List Char)} {k : Int} :
    k ∈ mapKeys m ↔ ∃ p ∈ m, p.1 = k := by
  simp [mapKeys, List.mem_map]

/-- Scan invariant for claim C6: once the scan has recorded a response for
id `N`, the pending-request map stays free of `N`. -/
def ScanNoReq (st : ScanState) (N : Int) : Prop :=
  (¬ ∃ p ∈ st.allRequests, p.1 = N) ∧ (∃ p ∈ st.allResponses, p.1 = N)

theorem scanEntry_preserves (st : ScanState) (N : Int) (h : ScanNoReq st N)
    (e : DirEntry) : ScanNoReq (scanEntry st e) N := by
  obtain ⟨h1, h2⟩ := h
  unfold scanEntry
  split
  · exact ⟨h1, h2⟩
  · cases hq : parseRequestIdFromFilename e.name with
    | some reqId =>
      simp only [hq]
      cases hres : mapHasKey st.allResponses reqId with
      | true => rw [if_pos rfl]; exact ⟨h1, h2⟩
      | false =>
        rw [if_neg Bool.false_ne_true]
        refine ⟨?_, h2⟩
        rintro ⟨p, hp, hpk⟩
        rcases mem_mapInsert.mp hp with hpe | ⟨hpm, _⟩
        · subst hpe
          obtain ⟨q, hq2, hqk⟩ := h2
          have hkey : mapHasKey st.allResponses reqId = true :=
            mapHasKey_iff.mpr ⟨q, hq2, by rw [hqk]; exact hpk.symm⟩
          rw [hkey] at hres
          exact Bool.noConfusion hres
        · exact h1 ⟨p, hpm, hpk⟩
    | none =>
      simp only [hq]
      cases hr : parseResponseIdFromFilename e.name with
      | some reqId =>
        simp only [hr]
        constructor
        · rintro ⟨p, hp, hpk⟩
          exact h1 ⟨p, (mem_mapErase.mp hp).1, hpk⟩
        · obtain ⟨q, hq2, hqk⟩ := h2
          by_cases hqN : q.1 = reqId
          · exact ⟨(reqId, e.name), mem_mapInsert.mpr (Or.inl rfl), by rw [← hqN]; exact hqk⟩
          · exact ⟨q, mem_mapInsert.mpr (Or.inr ⟨hq2, hqN⟩), hqk⟩
      | none => exact ⟨h1, h2⟩

theorem foldl_scan_preserves (l : List DirEntry) (st : ScanState) (N : Int)
    (h : ScanNoReq st N) : ScanNoReq (l.foldl scanEntry st) N := by
  induction l generalizing st with
  | nil => exact h
  | cons e t ih => exact ih (scanEntry st e) (scanEntry_preserves st N h e)

theorem scanEntry_response (st : ScanState) (N : Int) (h0 : 0 ≤ N)
    (h1 : N ≤ (maxInt64 : Int)) :
    ScanNoReq (scanEntry st ⟨responseFileName N, false⟩) N := by
  unfold scanEntry
  rw [if_neg (by exact Bool.false_ne_true), parseRequestId_responseFileName N h0,
    parseResponseIdFromFilename_roundTrip N h0 h1]
  constructor
  · rintro ⟨p, hp, hpk⟩
    exact (mem_mapErase.mp hp).2 hpk
  · exact ⟨(N, responseFileName N), mem_mapInsert.mpr (Or.inl rfl), rfl⟩

/-! ## Helper lemmas: filename parsing characterization (claim C10) -/

/-- What the source parsers actually accept, relative to splitting at the
FIRST dash: the name decomposes as `pre ++ '-' ++ suf` with a dash-free
`pre` accepted by Go's `Atoi`, and `suf` is either exactly the expected
suffix or the expected suffix followed by a dash and anything (because
`strings.Split` splits at every dash and only `parts[1]` is checked). -/
theorem parseId_characterization (sfx : List Char) (hsfx : '-' ∉ sfx)
    (fn : List Char) (N : Int) :
    (match splitOnDash fn with
     | p0 :: p1 :: _ => if p1 = sfx then goAtoi p0 else none
     | _ => none) = some N ↔
    ∃ pre suf, fn = pre ++ '-' :: suf ∧ '-' ∉ pre ∧ goAtoi pre = some N ∧
      (suf = sfx ∨ ∃ rest, suf = sfx ++ '-' :: rest) := by
  constructor
  · intro h
    rcases hs : splitOnDash fn with _ | ⟨p0, rest⟩
    · exact absurd hs (splitOnDash_ne_nil fn)
    · rcases rest with _ | ⟨p1, ps⟩
      · rw [hs] at h
        exact Option.noConfusion h
      · rw [hs] at h
        dsimp only at h
        by_cases hp1 : p1 = sfx
        · rw [if_pos hp1] at h
          obtain ⟨hnd0, hr0⟩ := splitOnDash_structure fn p0 (p1 :: ps) hs
          rcases hr0 with ⟨he, _⟩ | ⟨r, rfl, hr⟩
          · exact absurd he (List.cons_ne_nil p1 ps)
          · obtain ⟨_, hr1⟩ := splitOnDash_structure r p1 ps hr
            refine ⟨p0, r, rfl, hnd0, h, ?_⟩
            rcases hr1 with ⟨_, hrp⟩ | ⟨r2, hrr, _⟩
            · exact Or.inl (by rw [hrp, hp1])
            · exact Or.inr ⟨r2, by rw [hrr, hp1]⟩
        · rw [if_neg hp1] at h
          exact Option.noConfusion h
  · rintro ⟨pre, suf, rfl, hpre, hatoi, hsuf⟩
    rw [splitOnDash_append _ _ hpre]
    rcases hsuf with rfl | ⟨rest, rfl⟩
    · rw [splitOnDash_no_dash _ hsfx]
      dsimp only
      rw [if_pos rfl]
      exact hatoi
    · rw [splitOnDash_append _ _ hsfx]
      dsimp only
      rw [if_pos rfl]
      exact hatoi

/-- The claim's stated parsing rule, split at the FIRST dash only. -/
def firstDashSplit : List Char → Option (List Char × List Char)
  | [] => none
  | c :: cs =>
    if c = '-' then some ([], cs)
    else (firstDashSplit cs).map (fun p => (c :: p.1, p.2))

/-- Second definition, following the spec's words for comparison with the
source parser: a name is recognised as request `N` iff splitting it at the
first dash yields a prefix that is a plain base-10 numeral (decimal digits
only) of value `N` and a suffix that is exactly "req.yaml". -/
def claimRecognisedReq (fn : List Char) (N : Int) : Bool :=
  match firstDashSplit fn with
  | none => false
  | some (pre, suf) =>
    suf == "req.yaml".data &&
      (match digitsVal pre with
       | none => false
       | some v => ((v : Int) == N))

/-! ## Concrete fixtures used by counterexamples and witnesses -/

/-- A handler configuration with the kubectl binary configured and a 5 s
unary timeout. -/
def cfgEx : HandlerConfig :=
  { binaries := fun c => if c = "kubectl".data then some "/usr/local/bin/kubectl".data else none,
    timeouts := fun _ => 5000000000 }

/-- A stream-typed request for a non-allow-listed command. -/
def reqStreamHelm : Request :=
  ⟨"s1".data, 4, "stream".data, "helm".data, ["list".data], 0⟩

/-- A unary request for a non-allow-listed command. -/
def reqUnaryHelm : Request :=
  ⟨"s1".data, 5, "unary".data, "helm".data, ["list".data], 0⟩

/-- A well-formed `kubectl get nodes` request. -/
def reqGetNodes : Request :=
  ⟨"s1".data, 1, "unary".data, "kubectl".data, ["get".data, "nodes".data], 0⟩

/-- A well-formed request that supplies a 3000 ms timeout. -/
def reqGetNodesTimeout : Request :=
  ⟨"s1".data, 2, "unary".data, "kubectl".data, ["get".data, "nodes".data], 3000⟩

/-- A response-object store in which the response exists from the start. -/
def resStoreEx : Nat → Option (List Char) := fun _ => some "done".data

/-- A subscriber-channel trace: nothing happens for two instants, then the
caller's cancellation fires at instant 3. -/
def traceEx : Nat → FsWaitObs :=
  fun t => if t < 3 then FsWaitObs.nothingYet else FsWaitObs.cancelled

/-- A transport message fixture. -/
def msgEx : Message := ⟨1, 0, "output".data⟩

/-- The empty object store: no session marker, no messages. -/
def s3EmptyStore : S3Store := fun _ => none

/-- The session listing of scenario 4 of the spec, response file listed
first. -/
def entriesEx : List DirEntry :=
  [⟨"1-res.yaml".data, false⟩, ⟨"1-req.yaml".data, false⟩]

/-! ## Claim C1 - allow-list rejection -/

/-- C1 counterexample: the claim as stated covers every request whose cmd
is outside the allow-list, but a stream-typed request for a non-allow-listed
command is dropped at the call-type check (handleRequest lines 202-205)
without publishing any response, let alone one with exitCode -1. -/
theorem C1_counterexample :
    reqStreamHelm.cmd ≠ "kubectl".data ∧
    handleRequest cfgEx reqStreamHelm (ExecOutcome.finished 0 "ok".data) =
      ⟨none, false, false⟩ := by
  decide

/-- C1 (amended): for every request handled by the server whose type is
"unary" and whose cmd is not the allow-listed "kubectl", or whose cmd is
kubectl and whose args are empty or whose first positional argument is not
"get" or "describe", the handler publishes a response with exitCode -1 and
an explanatory `error:` output, and never invokes the command executor.
(The claim as frozen also covers non-unary requests; those are logged and
dropped with no response at all - see the counterexample.) -/
theorem C1_allowList_rejection (cfg : HandlerConfig) (req : Request)
    (outcome : ExecOutcome) (hu : req.type = "unary".data)
    (hbad : req.cmd ≠ "kubectl".data ∨
      ∀ a, req.args.head? = some a → a ≠ "get".data ∧ a ≠ "describe".data) :
    ∃ r, (handleRequest cfg req outcome).published = some r ∧ r.exitCode = -1 ∧
      (∃ m, r.output = "error: ".data ++ m) ∧
      (handleRequest cfg req outcome).execInvoked = false := by
  have key : ∃ m, handleRequest cfg req outcome =
      ⟨some (errResponse req m), false, false⟩ := by
    unfold handleRequest
    rw [if_neg (fun h => h hu)]
    by_cases hcmd : req.cmd = "kubectl".data
    · rw [if_neg (fun h => h hcmd)]
      have hargs := hbad.resolve_left (fun h => h hcmd)
      rcases ha : req.args with _ | ⟨a0, rest⟩
      · exact ⟨"auth: invalid args".data, rfl⟩
      · dsimp only
        have hg := hargs a0 (by rw [ha]; rfl)
        rw [if_pos hg]
        exact ⟨"auth: command not allowed".data, rfl⟩
    · rw [if_pos hcmd]
      exact ⟨"unsupported command".data, rfl⟩
  obtain ⟨m, hm⟩ := key
  exact ⟨errResponse req m, by rw [hm], rfl, ⟨m, rfl⟩, by rw [hm]⟩

/-- C1 witness: the unary `helm list` request is rejected with an
exitCode -1 error response and the executor is never invoked. -/
theorem C1_witness :
    reqUnaryHelm.type = "unary".data ∧
    (∃ r, (handleRequest cfgEx reqUnaryHelm (ExecOutcome.finished 0 "ok".data)).published =
        some r ∧ r.exitCode = -1 ∧ (∃ m, r.output = "error: ".data ++ m) ∧
      (handleRequest cfgEx reqUnaryHelm (ExecOutcome.finished 0 "ok".data)).execInvoked =
        false) :=
  ⟨by decide,
    C1_allowList_rejection cfgEx reqUnaryHelm (ExecOutcome.finished 0 "ok".data)
      (by decide) (Or.inl (by decide))⟩

/-! ## Claim C2 - per-subscription delivery of requests -/

/-- C2 failing inputs, evaluated on the embedded code. Filesystem backend:
the watcher watches only the sessions root, so the creation of
`/data/sessions/s1/1-req.yaml` after subscription produces no subscriber
event and the request is never emitted (at-least-once fails) - even though
the created path is exactly session s1's request 1. Object-store backend:
a request that stays unanswered across two poll scans is emitted twice
(at-most-once fails). -/
theorem C2_delivery_violations :
    fsWatchRequestsEventIds "/data".data ["/data/sessions/s1/1-req.yaml".data] = [] ∧
    "/data/sessions/s1/1-req.yaml".data = requestPath "/data".data "s1".data 1 ∧
    s3WatchRequestsEmitted
      [[⟨"1-req.yaml".data, false⟩], [⟨"1-req.yaml".data, false⟩]] = [1, 1] := by
  decide

/-! ## Claim C3 - SendResponse -/

/-- C3 counterexample: the filesystem backend's SendResponse always fails
with "not implemented" (even with the marker present and nothing wrong with
the write), and the object-store backend's SendResponse succeeds on a store
with no session marker instead of failing with NoSession. -/
theorem C3_counterexample :
    FSSendResponse "s1".data msgEx = Except.error "not implemented".data ∧
    s3HasSession s3EmptyStore "s1".data = false ∧
    (S3SendResponse s3EmptyStore "s1".data msgEx).isOk = true :=
  ⟨rfl, rfl, rfl⟩

/-- C3 (amended): the object-store SendResponse writes the response so that
subsequent readers observe it under the response key and never fails when
the underlying write succeeds - but it performs no session-marker check, so
it does not fail with NoSession when the marker is absent; the filesystem
backend's SendResponse is unimplemented and always fails. -/
theorem C3_sendResponse_behavior (store : S3Store) (sid : List Char) (msg : Message)
    (sid2 : List Char) (msg2 : Message) :
    (∃ store', S3SendResponse store sid msg = Except.ok store' ∧
      store' (s3MessageKey sid (responseFileName msg.id)) = some msg.data) ∧
    FSSendResponse sid2 msg2 = Except.error "not implemented".data := by
  refine ⟨⟨_, rfl, ?_⟩, rfl⟩
  simp [s3Put]

/-! ## Claim C4 - response fields for an accepted, completed request -/

/-- C4: for every request accepted by the allow-list whose process finishes
within the deadline with exit code `c` and combined output `o`, the handler
publishes (and the executor is invoked exactly for) a response with
requestID = req.id, sequenceID = 0, exitCode = c and output = o. -/
theorem C4_response_fields (cfg : HandlerConfig) (req : Request) (a0 : List Char)
    (rest : List (List Char)) (bin : List Char) (c : Int) (o : List Char)
    (hu : req.type = "unary".data) (hc : req.cmd = "kubectl".data)
    (ha : req.args = a0 :: rest)
    (hg : a0 = "get".data ∨ a0 = "describe".data)
    (hb : cfg.binaries req.cmd = some bin) :
    handleRequest cfg req (ExecOutcome.finished c o) =
      ⟨some ⟨req.id, 0, c, o⟩, true, false⟩ := by
  unfold handleRequest
  rw [if_neg (fun h => h hu), if_neg (fun h => h hc), ha]
  dsimp only
  have hcond : ¬(a0 ≠ "get".data ∧ a0 ≠ "describe".data) := by
    rcases hg with rfl | rfl
    · exact fun h => h.1 rfl
    · exact fun h => h.2 rfl
  rw [if_neg hcond, hb]

/-- C4 witness: `kubectl get nodes` finishing with exit code 0 and output
"NAME STATUS" yields exactly that response. -/
theorem C4_witness :
    reqGetNodes.type = "unary".data ∧ reqGetNodes.cmd = "kubectl".data ∧
    reqGetNodes.args = "get".data :: ["nodes".data] ∧
    cfgEx.binaries reqGetNodes.cmd = some "/usr/local/bin/kubectl".data ∧
    handleRequest cfgEx reqGetNodes (ExecOutcome.finished 0 "NAME STATUS".data) =
      ⟨some ⟨reqGetNodes.id, 0, 0, "NAME STATUS".data⟩, true, false⟩ :=
  ⟨by decide, by decide, by decide, by decide,
    C4_response_fields cfgEx reqGetNodes "get".data ["nodes".data]
      "/usr/local/bin/kubectl".data 0 "NAME STATUS".data
      (by decide) (by decide) (by decide) (Or.inl (by decide)) (by decide)⟩

/-! ## Claim C5 - client id allocation and monotonicity -/

/-- C5: the client assigns `request.id = GetLastRequestID(sessionID) + 1`
before publishing, and consequently two consecutive Send calls on one
session produce strictly increasing ids (the second allocation sees the
request file written by the first). The allocation step itself is modelled
from the spec (see `clientSendAllocate`); `GetLastRequestID` and the
written filename are embedded from the source. The bound keeps the id
within Atoi's `int64` range. -/
theorem C5_id_allocation (entries : List DirEntry)
    (hbound : GetLastRequestID entries + 1 ≤ (maxInt64 : Int)) :
    (clientSendAllocate entries).1 = GetLastRequestID entries + 1 ∧
    (clientSendAllocate (clientSendAllocate entries).2).1 >
      (clientSendAllocate entries).1 := by
  refine ⟨rfl, ?_⟩
  have h0 : 0 ≤ GetLastRequestID entries := GetLastRequestID_nonneg entries
  have hmem : (⟨requestFileName (GetLastRequestID entries + 1), false⟩ : DirEntry) ∈
      (clientSendAllocate entries).2 := List.mem_cons_self _ _
  have hparse : parseRequestIdFromFilename
      (requestFileName (GetLastRequestID entries + 1)) =
      some (GetLastRequestID entries + 1) :=
    parseRequestIdFromFilename_roundTrip _ (by omega) (by omega)
  have hge : GetLastRequestID entries + 1 ≤
      GetLastRequestID (clientSendAllocate entries).2 :=
    GetLastRequestID_ge _ _ hmem rfl _ hparse
  show GetLastRequestID (clientSendAllocate entries).2 + 1 >
    GetLastRequestID entries + 1
  omega

/-- C5 witness: on an empty session the first Send gets id 1 and the next
allocation yields a strictly larger id. -/
theorem C5_witness :
    GetLastRequestID ([] : List DirEntry) + 1 ≤ (maxInt64 : Int) ∧
    ((clientSendAllocate ([] : List DirEntry)).1 =
        GetLastRequestID ([] : List DirEntry) + 1 ∧
      (clientSendAllocate (clientSendAllocate ([] : List DirEntry)).2).1 >
        (clientSendAllocate ([] : List DirEntry)).1) :=
  ⟨by decide, C5_id_allocation [] (by decide)⟩

/-! ## Claim C6 - no re-emission of answered requests -/

/-- C6: whenever the session listing at subscription time contains both
`N-req.yaml` and `N-res.yaml`, the initial scan of WatchRequests does not
emit request N, in whatever order the scan encounters the two entries. -/
theorem C6_no_reemission (entries : List DirEntry) (N : Int) (h0 : 0 ≤ N)
    (h1 : N ≤ (maxInt64 : Int))
    (_hreq : (⟨requestFileName N, false⟩ : DirEntry) ∈ entries)
    (hres : (⟨responseFileName N, false⟩ : DirEntry) ∈ entries) :
    N ∉ unansweredRequestIds entries := by
  obtain ⟨s, t, rfl⟩ := List.append_of_mem hres
  intro hmem
  have hinv : ScanNoReq (initialScan (s ++ ⟨responseFileName N, false⟩ :: t)) N := by
    unfold initialScan
    rw [List.foldl_append, List.foldl_cons]
    exact foldl_scan_preserves t _ N (scanEntry_response _ N h0 h1)
  unfold unansweredRequestIds at hmem
  exact hinv.1 (mem_mapKeys.mp hmem)

/-- C6 witness: a session listing holding `1-res.yaml` before `1-req.yaml`
does not emit request 1. -/
theorem C6_witness :
    (0 : Int) ≤ 1 ∧ (1 : Int) ≤ (maxInt64 : Int) ∧
    (⟨requestFileName 1, false⟩ : DirEntry) ∈ entriesEx ∧
    (⟨responseFileName 1, false⟩ : DirEntry) ∈ entriesEx ∧
    (1 : Int) ∉ unansweredRequestIds entriesEx :=
  ⟨by decide, by decide, by decide, by decide,
    C6_no_reemission entriesEx 1 (by decide) (by decide) (by decide) (by decide)⟩

/-! ## Claim C7 - behaviour when the per-request deadline fires -/

/-- C7 counterexample: when the deadline fires on an accepted request the
handler publishes nothing, but it also does not kill the child process -
the child is started with `exec.Command` (not `exec.CommandContext`) and
the `ctx.Done` branch only logs and returns, so the claim's "kills the
child process" is false. -/
theorem C7_counterexample :
    handleRequest cfgEx reqGetNodes ExecOutcome.deadlineFired = ⟨none, true, false⟩ ∧
    (handleRequest cfgEx reqGetNodes ExecOutcome.deadlineFired).childKilledOnDeadline ≠
      true := by
  decide

/-- C7 (amended): for every accepted request whose process does not finish
before the per-request deadline, the handler publishes no response for it,
and the child process is not killed - the handler abandons it and returns. -/
theorem C7_timeout_behavior (cfg : HandlerConfig) (req : Request) (a0 : List Char)
    (rest : List (List Char)) (bin : List Char)
    (hu : req.type = "unary".data) (hc : req.cmd = "kubectl".data)
    (ha : req.args = a0 :: rest)
    (hg : a0 = "get".data ∨ a0 = "describe".data)
    (hb : cfg.binaries req.cmd = some bin) :
    handleRequest cfg req ExecOutcome.deadlineFired = ⟨none, true, false⟩ := by
  unfold handleRequest
  rw [if_neg (fun h => h hu), if_neg (fun h => h hc), ha]
  dsimp only
  have hcond : ¬(a0 ≠ "get".data ∧ a0 ≠ "describe".data) := by
    rcases hg with rfl | rfl
    · exact fun h => h.1 rfl
    · exact fun h => h.2 rfl
  rw [if_neg hcond, hb]

/-- C7 witness: the timed-out `kubectl get nodes` request yields no
response and no kill. -/
theorem C7_witness :
    reqGetNodesTimeout.type = "unary".data ∧ reqGetNodesTimeout.cmd = "kubectl".data ∧
    reqGetNodesTimeout.args = "get".data :: ["nodes".data] ∧
    cfgEx.binaries reqGetNodesTimeout.cmd = some "/usr/local/bin/kubectl".data ∧
    handleRequest cfgEx reqGetNodesTimeout ExecOutcome.deadlineFired =
      ⟨none, true, false⟩ :=
  ⟨by decide, by decide, by decide, by decide,
    C7_timeout_behavior cfgEx reqGetNodesTimeout "get".data ["nodes".data]
      "/usr/local/bin/kubectl".data
      (by decide) (by decide) (by decide) (Or.inl (by decide)) (by decide)⟩

/-! ## Claim C8 - the effective timeout -/

theorem effectiveTimeout_min_formula (rt d : Int) (h1 : 0 ≤ rt)
    (h2 : rt ≤ 9223372036854) (h3 : 0 ≤ d) (h4 : d < 2 ^ 63) :
    effectiveTimeout rt d = if rt = 0 then d else min (rt * 1000000) d := by
  unfold effectiveTimeout durationOfMillis durationMilliseconds
  have hw : wrap64 (rt * 1000000) = rt * 1000000 := by
    unfold wrap64
    omega
  rw [hw]
  show (if rt * 1000000 = 0 ∨ (rt * 1000000).tdiv 1000000 > d.tdiv 1000000
      then d else rt * 1000000) = if rt = 0 then d else min (rt * 1000000) d
  have ht1 : Int.tdiv (rt * 1000000) 1000000 = rt := by
    rw [Int.tdiv_eq_ediv (by exact mul_nonneg h1 (by norm_num)) (by norm_num)]
    exact Int.mul_ediv_cancel _ (by norm_num)
  have ht2 : Int.tdiv d 1000000 = d / 1000000 := Int.tdiv_eq_ediv h3 (by norm_num)
  rw [ht1, ht2, min_def]
  split_ifs <;> omega

/-- C8: for every decoded request (with the timeout and the configured
default in `int64`-safe ranges), the effective timeout equals the
configured default for the request's type when the request supplies no
timeout (field zero), and `min(request timeout, configured default)`
otherwise - the request timeout converted to nanoseconds. -/
theorem C8_effective_timeout (cfg : HandlerConfig) (req : Request)
    (h1 : 0 ≤ req.timeoutMs) (h2 : req.timeoutMs ≤ 9223372036854)
    (h3 : 0 ≤ cfg.timeouts req.type) (h4 : cfg.timeouts req.type < 2 ^ 63) :
    effectiveTimeoutFor cfg req =
      if req.timeoutMs = 0 then cfg.timeouts req.type
      else min (req.timeoutMs * 1000000) (cfg.timeouts req.type) :=
  effectiveTimeout_min_formula _ _ h1 h2 h3 h4

/-- C8 witness: a 3000 ms request timeout against a 5 s configured default
gives min(3 s, 5 s) = 3 s. -/
theorem C8_witness :
    (0 : Int) ≤ reqGetNodesTimeout.timeoutMs ∧
    reqGetNodesTimeout.timeoutMs ≤ 9223372036854 ∧
    (0 : Int) ≤ cfgEx.timeouts reqGetNodesTimeout.type ∧
    cfgEx.timeouts reqGetNodesTimeout.type < 2 ^ 63 ∧
    effectiveTimeoutFor cfgEx reqGetNodesTimeout =
      if reqGetNodesTimeout.timeoutMs = 0 then cfgEx.timeouts reqGetNodesTimeout.type
      else min (reqGetNodesTimeout.timeoutMs * 1000000)
        (cfgEx.timeouts reqGetNodesTimeout.type) :=
  ⟨by decide, by decide, by decide, by decide,
    C8_effective_timeout cfgEx reqGetNodesTimeout
      (by decide) (by decide) (by decide) (by decide)⟩

/-! ## Claim C9 - SendUnary with a pre-existing response -/

/-- The filesystem waitForResponse stays blocked while the subscriber
channel observes nothing, whatever is on disk: there is no up-front read. -/
theorem fsWait_blocked (resPath : List Char) (trace : Nat → FsWaitObs)
    (disk : Nat → Option (List Char)) :
    ∀ k t, (∀ u, t < u → u ≤ t + k → trace u = FsWaitObs.nothingYet) →
      fsWaitForResponse resPath trace disk k t = none := by
  intro k
  induction k with
  | zero => intro t _h; rfl
  | succ k ih =>
    intro t h
    rw [fsWaitForResponse, h (t + 1) (by omega) (by omega)]
    exact ih (t + 1) (fun u h1 h2 => h u (by omega) (by omega))

/-- The filesystem waitForResponse unblocks at the first instant at which
the subscriber channel observes anything - any event, related or not, or
the caller's cancellation - and performs its single read only then. -/
theorem fsWait_unblocks (resPath : List Char) (trace : Nat → FsWaitObs)
    (disk : Nat → Option (List Char)) :
    ∀ k t, (∀ u, t < u → u ≤ t + k → trace u = FsWaitObs.nothingYet) →
      trace (t + k + 1) ≠ FsWaitObs.nothingYet →
      fsWaitForResponse resPath trace disk (k + 1) t =
        some (t + k + 1, disk (t + k + 1)) := by
  intro k
  induction k with
  | zero =>
    intro t _h hne
    rw [fsWaitForResponse]
    rcases he : trace (t + 1) with _ | ev | _
    · exact absurd he hne
    · show (if eventMatchesResponse ev resPath then some (t + 1, disk (t + 1))
        else some (t + 1, disk (t + 1))) = some (t + 0 + 1, disk (t + 0 + 1))
      split <;> rfl
    · rfl
  | succ k ih =>
    intro t h hne
    rw [fsWaitForResponse, h (t + 1) (by omega) (by omega)]
    have hidx : t + 1 + k + 1 = t + (k + 1) + 1 := by omega
    have hne' : trace (t + 1 + k + 1) ≠ FsWaitObs.nothingYet := by
      rw [hidx]; exact hne
    have hrec := ih (t + 1) (fun u h1 h2 => h u (by omega) (by omega)) hne'
    rw [hidx] at hrec
    exact hrec

/-- C9 counterexample: the response is present from the very call instant,
yet the object-store waitForResponse returns it only at poll tick 1 (the
ticker must fire before the first read), and the filesystem waitForResponse
is still blocked two instants after the call while its subscriber channel
stays quiet - neither backend returns immediately. -/
theorem C9_counterexample :
    resStoreEx 0 = some "done".data ∧
    s3WaitForResponse resStoreEx 5 0 = some ("done".data, 1) ∧
    fsWaitForResponse (responsePath "/data".data "s1".data 1) traceEx resStoreEx 2 0 =
      none := by
  decide

/-- C9 (amended): when the matching response already exists at call time,
SendUnary's wait loop in the object-store backend returns that response at
the first poll tick - it performs no up-front read, so the return is
delayed by one poll interval rather than immediate; and the filesystem
backend's waitForResponse performs no up-front read either - with the
response already on disk it stays blocked while its subscriber channel
observes nothing and returns the response only at the first file event
(related or not) or at the caller's cancellation. -/
theorem C9_pre_existing_response (store : Nat → Option (List Char)) (fuel : Nat)
    (d : List Char) (hs : store 1 = some d) (resPath : List Char)
    (trace : Nat → FsWaitObs) (disk : Nat → Option (List Char))
    (hd : ∀ t, disk t = some d) (k : Nat)
    (hq : ∀ t, 1 ≤ t → t ≤ k → trace t = FsWaitObs.nothingYet) :
    s3WaitForResponse store (fuel + 1) 0 = some (d, 1) ∧
    fsWaitForResponse resPath trace disk k 0 = none ∧
    (trace (k + 1) ≠ FsWaitObs.nothingYet →
      fsWaitForResponse resPath trace disk (k + 1) 0 = some (k + 1, some d)) := by
  refine ⟨?_, ?_, ?_⟩
  · rw [s3WaitForResponse]
    rw [show (0 : Nat) + 1 = 1 from rfl, hs]
  · exact fsWait_blocked resPath trace disk k 0
      (fun u h1 h2 => hq u (by omega) (by omega))
  · intro hne
    have h0 : 0 + k + 1 = k + 1 := by omega
    have hne' : trace (0 + k + 1) ≠ FsWaitObs.nothingYet := by rw [h0]; exact hne
    have hrec := fsWait_unblocks resPath trace disk k 0
      (fun u h1 h2 => hq u (by omega) (by omega)) hne'
    rw [h0] at hrec
    rw [hrec, hd (k + 1)]

/-- C9 witness: the always-present response store returns at tick 1 in the
object-store backend, and in the filesystem backend the wait is still
blocked after two quiet instants and returns the response at the
cancellation at instant 3. -/
theorem C9_witness :
    resStoreEx 1 = some "done".data ∧
    (∀ t, resStoreEx t = some "done".data) ∧
    (∀ t, 1 ≤ t → t ≤ 2 → traceEx t = FsWaitObs.nothingYet) ∧
    (s3WaitForResponse resStoreEx (4 + 1) 0 = some ("done".data, 1) ∧
      fsWaitForResponse (responsePath "/data".data "s1".data 1) traceEx resStoreEx 2 0 =
        none ∧
      (traceEx (2 + 1) ≠ FsWaitObs.nothingYet →
        fsWaitForResponse (responsePath "/data".data "s1".data 1) traceEx resStoreEx
          (2 + 1) 0 = some (2 + 1, some "done".data))) :=
  ⟨rfl, fun _t => rfl, by intro t h1 h2; interval_cases t <;> rfl,
    C9_pre_existing_response resStoreEx 4 "done".data rfl
      (responsePath "/data".data "s1".data 1) traceEx resStoreEx (fun _t => rfl) 2
      (by intro t h1 h2; interval_cases t <;> rfl)⟩

/-! ## Claim C10 - filename recognition -/

/-- C10 counterexample: `strings.Split` splits at every dash and only the
second field is checked, so `1-req.yaml-x` is recognised as request 1
(and counted by GetLastRequestID) although its first-split suffix is
`req.yaml-x`, not exactly `req.yaml`; and `+2-req.yaml` is recognised as
request 2 although its prefix `+2` is not a plain base-10 numeral. The
claim's rule (`claimRecognisedReq`) rejects both names. -/
theorem C10_counterexample :
    parseRequestIdFromFilename "1-req.yaml-x".data = some 1 ∧
    claimRecognisedReq "1-req.yaml-x".data 1 = false ∧
    GetLastRequestID [⟨"1-req.yaml-x".data, false⟩] = 1 ∧
    parseRequestIdFromFilename "+2-req.yaml".data = some 2 ∧
    claimRecognisedReq "+2-req.yaml".data 2 = false := by
  decide

/-- C10 (amended): a filename is recognised as request (response) N iff
splitting it at the FIRST dash yields a prefix accepted by Go's Atoi with
value N (optional sign, decimal digits, `int64` range) and a suffix that
either is exactly `req.yaml` (`res.yaml`) or begins with `req.yaml-`
(`res.yaml-`) - equivalently, the second dash-separated field is exactly
the expected suffix; every other name is ignored. -/
theorem C10_parse_characterization (fn : List Char) (N : Int) :
    (parseRequestIdFromFilename fn = some N ↔
      ∃ pre suf, fn = pre ++ '-' :: suf ∧ '-' ∉ pre ∧ goAtoi pre = some N ∧
        (suf = "req.yaml".data ∨ ∃ rest, suf = "req.yaml".data ++ '-' :: rest)) ∧
    (parseResponseIdFromFilename fn = some N ↔
      ∃ pre suf, fn = pre ++ '-' :: suf ∧ '-' ∉ pre ∧ goAtoi pre = some N ∧
        (suf = "res.yaml".data ∨ ∃ rest, suf = "res.yaml".data ++ '-' :: rest)) :=
  ⟨parseId_characterization "req.yaml".data (by decide) fn N,
    parseId_characterization "res.yaml".data (by decide) fn N⟩

end Genie
